import Mathlib

/-!
Verification development for the sitemap discovery → extraction → classification →
reconciliation pipeline of the minnesotadirectory repository (neon-mcp-server scripts).

Python strings are modelled as lists of characters (`Str`); Python dicts produced by
the extractors are modelled as structures; the asyncpg store is modelled as an explicit
state (`RecState`) together with a per-row accept/reject oracle (`ok`) abstracting
row-level insertion failures (duplicate keys, constraint violations, oversized fields).
Network fetches are modelled by passing the fetched documents as explicit inputs
(`none` standing for a missing `loc` element or a failed/non-200 fetch).
-/

namespace MD

/-- Python strings, modelled as lists of characters. -/
abbrev Str := List Char

/-- Python `p in s` substring test (`containsSub s p` means `p` occurs inside `s`). -/
def containsSub (s p : Str) : Bool := decide (p <:+: s)

/-- Python `s.startswith(p)`. -/
def startsWithStr (s p : Str) : Bool := decide (p <+: s)

/-- Python `s.endswith(p)`. -/
def endsWithStr (s p : Str) : Bool := decide (p <:+ s)

/-- Python `s.lower()` (ASCII behaviour). -/
def lowerStr (s : Str) : Str := s.map Char.toLower

/-- Python `s.strip()` (common ASCII whitespace). -/
def stripStr (s : Str) : Str :=
  ((s.dropWhile Char.isWhitespace).reverse.dropWhile Char.isWhitespace).reverse

/-- Python `s.split(sep)` for a single-character separator. -/
def splitOnChar (sep : Char) : Str → List Str
  | [] => [[]]
  | c :: rest =>
    match splitOnChar sep rest with
    | [] => [[]]
    | h :: t => if c = sep then [] :: h :: t else (c :: h) :: t

/-- Python `s.title()`: the first alphabetic character of every run is uppercased,
the following alphabetic characters are lowercased (ASCII behaviour). -/
def titleCase (s : Str) : Str :=
  (s.foldl
    (fun acc c =>
      if c.isAlpha then
        ((if acc.2 then acc.1 ++ [c.toLower] else acc.1 ++ [c.toUpper]), true)
      else (acc.1 ++ [c], false))
    (([] : Str), false)).1

/-- Fuel-driven worker for `replaceStr`; the fuel starts at the length of the string,
which always suffices because each step consumes at least one character, so the
fuel-exhausted branch is unreachable. -/
def replaceStrAux (pat rep : Str) : Nat → Str → Str
  | _, [] => []
  | 0, s => s
  | fuel + 1, c :: rest =>
    if pat ≠ [] ∧ pat <+: (c :: rest) then
      rep ++ replaceStrAux pat rep fuel ((c :: rest).drop pat.length)
    else
      c :: replaceStrAux pat rep fuel rest

/-- Python `s.replace(pat, rep)`: every occurrence of `pat` in `s`, scanned left to
right, is replaced by `rep` (for nonempty `pat`, the only way it is used here). -/
def replaceStr (s pat rep : Str) : Str := replaceStrAux pat rep s.length s

/-- `urllib.parse.urlparse(url).path` restricted to the http(s) URLs this pipeline
feeds it: the scheme is dropped, the host runs to the first of `/`, `?`, `#`, and the
path runs from that `/` (if any) to the first of `?`, `#`. -/
def urlPath (url : Str) : Str :=
  let rest :=
    if startsWithStr url "https://".data then url.drop 8
    else if startsWithStr url "http://".data then url.drop 7
    else url
  let afterHost := rest.dropWhile (fun c => c != '/' && c != '?' && c != '#')
  match afterHost with
  | '/' :: _ => afterHost.takeWhile (fun c => c != '?' && c != '#')
  | _ => []

/-- One namespaced `url` element of a sitemap document, as read by the extractors:
`loc` is `none` when the `loc` child is missing or its text is `None`. -/
structure UrlElement where
  loc : Option Str
  lastmod : Option Str
  priority : Option Str
  changefreq : Option Str
deriving DecidableEq

/-- Page dict built by `AdvancedSitemapParser.extract_real_pages_from_xml`.
The raw `priority` text is kept unconverted (the source converts it with `float`,
which does not affect which URLs are yielded). -/
structure SitemapPage where
  url : Str
  path : Str
  title : Str
  lastModified : Option Str
  priority : Option Str
  changeFreq : Option Str
  depth : Nat
deriving DecidableEq

/-- `re.sub(r'\x2ehtml?$', '', title, flags=re.IGNORECASE)`: strips one trailing
`.html` or `.htm`, case-insensitively (the regex is greedy, so `.html` wins). -/
def stripHtmlSuffix (s : Str) : Str :=
  if endsWithStr (lowerStr s) ".html".data then s.take (s.length - 5)
  else if endsWithStr (lowerStr s) ".htm".data then s.take (s.length - 4)
  else s

/-- `AdvancedSitemapParser.generate_title_from_url`. -/
def generate_title_from_url (url : Str) : Str :=
  let path := (((urlPath url).dropWhile (fun c => c == '/')).reverse.dropWhile
    (fun c => c == '/')).reverse
  if path.isEmpty then "Home".data
  else
    match ((splitOnChar '/' path).filter (fun s => !s.isEmpty)).getLast? with
    | some last_segment =>
      let title := last_segment.map (fun c => if c = '-' ∨ c = '_' then ' ' else c)
      titleCase (stripHtmlSuffix title)
    | none => "Page".data

/-- The body of the per-element loop of
`AdvancedSitemapParser.extract_real_pages_from_xml` (advanced_sitemap_parser.py,
lines 125-152): an element contributes a page exactly when its `loc` text is present
and nonempty and the stripped URL contains the domain, contains neither `sitemap`
nor `.xml` case-insensitively, and starts with `http://` or `https://`. -/
def pageOfUrlElem (domain : Str) (e : UrlElement) : Option SitemapPage :=
  match e.loc with
  | none => none
  | some t =>
    if t.isEmpty then none
    else
      let url := stripStr t
      if containsSub url domain && !containsSub (lowerStr url) "sitemap".data &&
          !containsSub (lowerStr url) ".xml".data &&
          (startsWithStr url "http://".data || startsWithStr url "https://".data) then
        let path := if startsWithStr url "http".data then urlPath url else url
        some { url := url, path := path, title := generate_title_from_url url,
               lastModified := e.lastmod, priority := e.priority,
               changeFreq := e.changefreq,
               depth := ((splitOnChar '/' path).filter (fun x => !x.isEmpty)).length }
      else none

/-- `AdvancedSitemapParser.extract_real_pages_from_xml` on an already-parsed list of
`url` elements (XML parse failures yield the empty element list upstream). -/
def extract_real_pages_from_xml (elems : List UrlElement) (domain : Str) :
    List SitemapPage :=
  elems.filterMap (pageOfUrlElem domain)

/-- Shorthand turning a list of string literals into pattern lists. -/
def strs (l : List String) : List Str := l.map String.data

/-- `database_sitemap_fixer.classify_real_page`. -/
def classify_real_page (url : Str) : Str :=
  let url_lower := lowerStr url
  if (strs ["/career", "/job", "/hiring"]).any (fun x => containsSub url_lower x) then
    "careers".data
  else if (strs ["/service", "/solution"]).any (fun x => containsSub url_lower x) then
    "services".data
  else if (strs ["/product", "/shop", "/catalog"]).any (fun x => containsSub url_lower x) then
    "products".data
  else if (strs ["/about", "/company"]).any (fun x => containsSub url_lower x) then
    "about".data
  else if (strs ["/news", "/blog", "/press"]).any (fun x => containsSub url_lower x) then
    "news".data
  else if (strs ["/team", "/leadership"]).any (fun x => containsSub url_lower x) then
    "team".data
  else if (strs ["/contact"]).any (fun x => containsSub url_lower x) then
    "contact".data
  else
    "other".data

/-- `database_sitemap_fixer.get_bi_classification`: map lookup with the `other`
entry as the default. -/
def get_bi_classification (page_type : Str) : Str × Nat × Str :=
  if page_type = "careers".data then
    ("careers".data, 1, "Hiring activity, growth indicators, business expansion signals".data)
  else if page_type = "services".data then
    ("services".data, 1, "Revenue streams, core competencies, competitive positioning".data)
  else if page_type = "products".data then
    ("products".data, 1, "Product portfolio, market focus, innovation pipeline".data)
  else if page_type = "about".data then
    ("about".data, 1, "Mission, history, size, business model, values".data)
  else if page_type = "team".data then
    ("team".data, 2, "Leadership depth, expertise, company culture, decision makers".data)
  else if page_type = "news".data then
    ("news".data, 2, "Market activity, thought leadership, PR activity, company momentum".data)
  else if page_type = "contact".data then
    ("contact".data, 3, "Geographic presence, contact channels, business accessibility".data)
  else
    ("unclassified".data, 7, "Unknown business intelligence value".data)

/-- `database_sitemap_fixer.generate_title_from_path`. -/
def generate_title_from_path (path : Str) : Str :=
  if path = "/".data then "Home".data
  else
    match ((splitOnChar '/' path).filter (fun s => !s.isEmpty)).getLast? with
    | some seg =>
      titleCase (seg.map (fun c => if c = '-' ∨ c = '_' then ' ' else c))
    | none => "Page".data

/-- Page dict built by `database_sitemap_fixer.extract_urls_from_sitemap_xml`. -/
structure FixerPage where
  url : Str
  path : Str
  title : Str
  page_type : Str
  bi_classification : Str
  tier : Nat
  intelligence_value : Str
deriving DecidableEq

/-- The body of the per-element loop of
`database_sitemap_fixer.extract_urls_from_sitemap_xml` (lines 153-176): this variant
neither strips the `loc` text nor filters `.xml` URLs nor requires an http(s) scheme
— its only filter is `domain in url and 'sitemap' not in url.lower()`. -/
def fixerPageOfUrlElem (domain : Str) (e : UrlElement) : Option FixerPage :=
  match e.loc with
  | none => none
  | some url =>
    if url.isEmpty then none
    else
      if containsSub url domain && !containsSub (lowerStr url) "sitemap".data then
        let path := replaceStr (replaceStr url ("https://".data ++ domain) [])
          ("http://".data ++ domain) []
        let path := if startsWithStr path "/".data then path else '/' :: path
        let page_type := classify_real_page url
        let bi := get_bi_classification page_type
        some { url := url, path := path, title := generate_title_from_path path,
               page_type := page_type, bi_classification := bi.1, tier := bi.2.1,
               intelligence_value := bi.2.2 }
      else none

/-- `database_sitemap_fixer.extract_urls_from_sitemap_xml` on an already-parsed list
of `url` elements. -/
def extract_urls_from_sitemap_xml (elems : List UrlElement) (domain : Str) :
    List FixerPage :=
  elems.filterMap (fixerPageOfUrlElem domain)

/-- Classification dict returned by the chained if/elif classifiers. -/
structure BIInfo where
  page_type : Str
  bi_classification : Str
  business_value_tier : Nat
  intelligence_value : Str
deriving DecidableEq

/-- `phase3_scaled_processor.get_enhanced_bi_classification`. -/
def get_enhanced_bi_classification (url : Str) : BIInfo :=
  let url_lower := lowerStr url
  if (strs ["/career", "/job", "/hiring", "/employment", "/opportunity"]).any
      (fun k => containsSub url_lower k) then
    ⟨"careers".data, "careers".data, 1,
      "Hiring activity, growth indicators, business expansion signals".data⟩
  else if (strs ["/service", "/solution", "/offering", "/capability"]).any
      (fun k => containsSub url_lower k) then
    ⟨"services".data, "services".data, 1,
      "Revenue streams, core competencies, competitive positioning".data⟩
  else if (strs ["/product", "/catalog", "/shop", "/store", "/brand"]).any
      (fun k => containsSub url_lower k) then
    ⟨"products".data, "products".data, 1,
      "Product portfolio, market focus, innovation pipeline".data⟩
  else if (strs ["/about", "/company", "/who-we-are", "/overview"]).any
      (fun k => containsSub url_lower k) then
    ⟨"about".data, "about".data, 1,
      "Mission, history, size, business model, values".data⟩
  else if (strs ["/team", "/leadership", "/people", "/staff", "/management"]).any
      (fun k => containsSub url_lower k) then
    ⟨"team".data, "team".data, 2,
      "Leadership depth, expertise, company culture, decision makers".data⟩
  else if (strs ["/news", "/blog", "/insight", "/article", "/press", "/media"]).any
      (fun k => containsSub url_lower k) then
    ⟨"news".data, "news".data, 2,
      "Market activity, thought leadership, PR activity, company momentum".data⟩
  else if (strs ["/location", "/office", "/facility", "/branch"]).any
      (fun k => containsSub url_lower k) then
    ⟨"locations".data, "locations".data, 3,
      "Market reach, geographic expansion, operational footprint".data⟩
  else if (strs ["/contact", "/reach-us", "/get-in-touch"]).any
      (fun k => containsSub url_lower k) then
    ⟨"contact".data, "contact".data, 3,
      "Geographic presence, contact channels, business accessibility".data⟩
  else
    ⟨"other".data, "unclassified".data, 7,
      "Unknown business intelligence value".data⟩

/-- `phase3_scaled_processor.create_title_from_path`. -/
def create_title_from_path (path : Str) : Str :=
  if path = "/".data then "Home".data
  else
    match ((splitOnChar '/' path).filter (fun s => !s.isEmpty)).getLast? with
    | some seg =>
      let title := seg.map (fun c => if c = '-' ∨ c = '_' then ' ' else c)
      let title := replaceStr (replaceStr (replaceStr title ".html".data [])
        ".htm".data []) ".php".data []
      titleCase title
    | none => "Page".data

/-- Page dict built by `phase3_scaled_processor.parse_sitemap_for_real_pages`. -/
structure P3Page where
  url : Str
  path : Str
  title : Str
  depth : Nat
  page_type : Str
  bi_classification : Str
  business_value_tier : Nat
  intelligence_value : Str
deriving DecidableEq

/-- The body of the per-element loop of
`phase3_scaled_processor.parse_sitemap_for_real_pages` (lines 252-277). -/
def p3PageOfUrlElem (domain : Str) (e : UrlElement) : Option P3Page :=
  match e.loc with
  | none => none
  | some t =>
    if t.isEmpty then none
    else
      let url := stripStr t
      if containsSub url domain && !containsSub (lowerStr url) "sitemap".data &&
          !containsSub (lowerStr url) ".xml".data && !endsWithStr url ".xml".data &&
          (startsWithStr url "http://".data || startsWithStr url "https://".data) then
        let path := replaceStr (replaceStr url ("https://www.".data ++ domain) [])
          ("https://".data ++ domain) []
        let path := if path.isEmpty then "/".data else path
        let bi := get_enhanced_bi_classification url
        some { url := url, path := path, title := create_title_from_path path,
               depth := ((splitOnChar '/' path).filter (fun x => !x.isEmpty)).length,
               page_type := bi.page_type, bi_classification := bi.bi_classification,
               business_value_tier := bi.business_value_tier,
               intelligence_value := bi.intelligence_value }
      else none

/-- `phase3_scaled_processor.parse_sitemap_for_real_pages` on an already-parsed list
of `url` elements. -/
def parse_sitemap_for_real_pages (elems : List UrlElement) (domain : Str) :
    List P3Page :=
  elems.filterMap (p3PageOfUrlElem domain)

/-- The sub-sitemap loop of `phase3_scaled_processor.parse_sitemap_index_for_real_pages`
(lines 222-237): `none` stands for a missing `loc` or a failed fetch (both are skipped);
a successful sub-sitemap extends `all_pages`, and the loop breaks once `all_pages`
has reached 300 entries — the check happens only *after* the extend. -/
def indexLoop (domain : Str) : List (Option (List UrlElement)) → List P3Page →
    List P3Page
  | [], all_pages => all_pages
  | sub :: rest, all_pages =>
    match sub with
    | none => indexLoop domain rest all_pages
    | some elems =>
      let all_pages2 := all_pages ++ parse_sitemap_for_real_pages elems domain
      if 300 ≤ all_pages2.length then all_pages2 else indexLoop domain rest all_pages2

/-- `phase3_scaled_processor.parse_sitemap_index_for_real_pages`: only the first 10
sub-sitemaps are considered (`sitemap_elements[:10]`). -/
def parse_sitemap_index_for_real_pages (domain : Str)
    (subs : List (Option (List UrlElement))) : List P3Page :=
  indexLoop domain (subs.take 10) []

/-- `AdvancedSitemapParser.classify_page_for_bi`. -/
def classify_page_for_bi (url : Str) : BIInfo :=
  let url_lower := lowerStr url
  if (strs ["/career", "/job", "/hiring", "/employment", "/work-with-us",
      "/join-us"]).any (fun x => containsSub url_lower x) then
    ⟨"careers".data, "careers".data, 1,
      "Hiring activity, growth indicators, business expansion signals".data⟩
  else if (strs ["/service", "/solution", "/offering", "/capability",
      "/what-we-do"]).any (fun x => containsSub url_lower x) then
    ⟨"services".data, "services".data, 1,
      "Revenue streams, core competencies, competitive positioning".data⟩
  else if (strs ["/product", "/shop", "/catalog", "/store", "/brands"]).any
      (fun x => containsSub url_lower x) then
    ⟨"products".data, "products".data, 1,
      "Product portfolio, market focus, innovation pipeline".data⟩
  else if (strs ["/about", "/company", "/who-we-are", "/overview", "/our-story"]).any
      (fun x => containsSub url_lower x) then
    ⟨"about".data, "about".data, 1,
      "Mission, history, size, business model, values".data⟩
  else if (strs ["/team", "/leadership", "/people", "/staff", "/management",
      "/executives"]).any (fun x => containsSub url_lower x) then
    ⟨"team".data, "team".data, 2,
      "Leadership depth, expertise, company culture, decision makers".data⟩
  else if (strs ["/news", "/blog", "/insight", "/article", "/press", "/media"]).any
      (fun x => containsSub url_lower x) then
    ⟨"news".data, "news".data, 2,
      "Market activity, thought leadership, PR activity, company momentum".data⟩
  else if (strs ["/location", "/office", "/facility", "/branch", "/store"]).any
      (fun x => containsSub url_lower x) then
    ⟨"locations".data, "locations".data, 3,
      "Market reach, geographic expansion, operational footprint".data⟩
  else if (strs ["/contact", "/reach-us", "/get-in-touch"]).any
      (fun x => containsSub url_lower x) then
    ⟨"contact".data, "contact".data, 3,
      "Geographic presence, contact channels, business accessibility".data⟩
  else
    ⟨"other".data, "unclassified".data, 7,
      "Unknown business intelligence value".data⟩

/-- The inner per-page loop of `AdvancedSitemapParser.parse_company_real_pages`
(lines 69-73): pages of one sub-sitemap are classified and appended one at a time,
each append guarded by the `len(real_pages) >= limit_pages` break. -/
def appendUpTo (limit : Nat) (f : SitemapPage → SitemapPage × BIInfo) :
    List SitemapPage → List (SitemapPage × BIInfo) → List (SitemapPage × BIInfo)
  | [], acc => acc
  | p :: rest, acc =>
    if limit ≤ acc.length then acc else appendUpTo limit f rest (acc ++ [f p])

/-- The sub-sitemap loop of `AdvancedSitemapParser.parse_company_real_pages`
(lines 52-80): the loop head breaks once `limit` entries have accumulated; `none`
(missing `loc`, failed fetch or non-200 status) is skipped. -/
def walkIndex (limit : Nat) (domain : Str) :
    List (Option (List UrlElement)) → List (SitemapPage × BIInfo) →
    List (SitemapPage × BIInfo)
  | [], acc => acc
  | sub :: rest, acc =>
    if limit ≤ acc.length then acc
    else
      match sub with
      | none => walkIndex limit domain rest acc
      | some elems =>
        walkIndex limit domain rest
          (appendUpTo limit (fun p => (p, classify_page_for_bi p.url))
            (extract_real_pages_from_xml elems domain) acc)

/-- A fetched entry-point sitemap document: either an index whose sub-sitemap slots
have already been fetched (`none` = missing `loc`/failed fetch), or a direct sitemap. -/
inductive SitemapDoc where
  | index (subs : List (Option (List UrlElement)))
  | direct (elems : List UrlElement)

/-- The parsing core of `AdvancedSitemapParser.parse_company_real_pages`
(lines 36-94), with the entry document and all sub-documents supplied as inputs:
an index is walked by `walkIndex`; a direct sitemap is truncated with
`pages[:limit_pages]` and classified. -/
def parse_company_real_pages (domain : Str) (limit_pages : Nat) (doc : SitemapDoc) :
    List (SitemapPage × BIInfo) :=
  match doc with
  | .index subs => walkIndex limit_pages domain subs []
  | .direct elems =>
    ((extract_real_pages_from_xml elems domain).take limit_pages).map
      (fun p => (p, classify_page_for_bi p.url))

/-- One entry of `bi_page_classifier.BI_TAXONOMY`. -/
structure BIRule where
  category : Str
  tier : Nat
  intelligence : Str
  url_patterns : List Str
  title_patterns : List Str
deriving DecidableEq

/-- `bi_page_classifier.BI_TAXONOMY`: a Python 3.7+ dict preserves insertion order,
so the taxonomy is an ordered list, careers first. -/
def BI_TAXONOMY : List BIRule := [
  ⟨"careers".data, 1,
    "Hiring activity, growth indicators, business expansion signals".data,
    strs ["/careers", "/jobs", "/employment", "/opportunities", "/hiring",
      "/work-with-us", "/join-us"],
    strs ["careers", "jobs", "employment", "opportunities", "join us",
      "work with us", "hiring", "open positions"]⟩,
  ⟨"services".data, 1,
    "Revenue streams, core competencies, competitive positioning".data,
    strs ["/services", "/solutions", "/offerings", "/capabilities", "/expertise",
      "/what-we-do"],
    strs ["services", "solutions", "what we do", "capabilities", "offerings",
      "expertise"]⟩,
  ⟨"products".data, 1,
    "Product portfolio, market focus, innovation pipeline".data,
    strs ["/products", "/catalog", "/portfolio", "/brands", "/shop"],
    strs ["products", "catalog", "portfolio", "brands", "offerings", "shop"]⟩,
  ⟨"about".data, 1,
    "Mission, history, size, business model, values".data,
    strs ["/about", "/company", "/who-we-are", "/overview", "/our-story"],
    strs ["about", "company", "who we are", "overview", "our story", "about us"]⟩,
  ⟨"team".data, 2,
    "Leadership depth, expertise, company culture, decision makers".data,
    strs ["/team", "/leadership", "/people", "/staff", "/management",
      "/executives", "/board", "/founders"],
    strs ["team", "leadership", "people", "staff", "management", "executives",
      "our team", "meet the team", "board of directors", "founders"]⟩,
  ⟨"news".data, 2,
    "Market activity, thought leadership, PR activity, company momentum".data,
    strs ["/news", "/blog", "/insights", "/updates", "/press", "/media",
      "/articles", "/resources"],
    strs ["news", "blog", "insights", "updates", "press releases", "media",
      "articles", "thought leadership", "resources"]⟩,
  ⟨"locations".data, 3,
    "Market reach, geographic expansion, operational footprint".data,
    strs ["/locations", "/offices", "/facilities", "/branches", "/stores",
      "/find-us"],
    strs ["locations", "offices", "facilities", "branches", "stores", "find us",
      "where we are"]⟩,
  ⟨"contact".data, 3,
    "Geographic presence, contact channels, business accessibility".data,
    strs ["/contact", "/reach-us", "/get-in-touch", "/connect"],
    strs ["contact", "reach us", "get in touch", "contact us", "connect"]⟩,
  ⟨"case-studies".data, 4,
    "Client quality, project scale, market positioning, success metrics".data,
    strs ["/case-studies", "/portfolio", "/work", "/projects", "/clients",
      "/success-stories", "/testimonials"],
    strs ["case studies", "portfolio", "our work", "projects", "success stories",
      "client stories", "testimonials"]⟩,
  ⟨"industries".data, 4,
    "Market segments, vertical expertise, industry positioning".data,
    strs ["/industries", "/sectors", "/markets", "/verticals", "/who-we-serve"],
    strs ["industries", "sectors", "markets", "verticals", "who we serve",
      "market focus"]⟩,
  ⟨"investors".data, 5,
    "Financial health, public company status, growth metrics".data,
    strs ["/investors", "/investor-relations", "/financials", "/sec-filings",
      "/earnings"],
    strs ["investors", "investor relations", "financials", "sec filings",
      "earnings"]⟩,
  ⟨"legal".data, 6,
    "Compliance status (minimal business intelligence)".data,
    strs ["/terms", "/privacy", "/legal", "/compliance", "/gdpr", "/ccpa",
      "/cookies"],
    strs ["terms", "privacy", "legal", "compliance", "gdpr", "ccpa",
      "cookie policy"]⟩]

/-- `url.lower() if url else ''`: Python truthiness treats `None` and `''` alike. -/
def lowerOrEmpty (s : Option Str) : Str :=
  match s with
  | none => []
  | some t => if t.isEmpty then [] else lowerStr t

/-- Whether one taxonomy rule matches: some URL pattern occurs in the lowered URL,
or some title pattern occurs in the lowered title. -/
def ruleMatches (r : BIRule) (u t : Str) : Bool :=
  r.url_patterns.any (fun p => containsSub u p) ||
    r.title_patterns.any (fun p => containsSub t p)

/-- The rule loop of `bi_page_classifier.classify_page_bi` (lines 104-116): for each
rule in order, URL patterns are checked first, then title patterns; the first match
returns that rule's (classification, tier, intelligence) triple. -/
def classifyAux (u t : Str) : List BIRule → Str × Nat × Str
  | [] => ("unclassified".data, 7, "Unknown business intelligence value".data)
  | r :: rest =>
    if r.url_patterns.any (fun p => containsSub u p) then
      (r.category, r.tier, r.intelligence)
    else if r.title_patterns.any (fun p => containsSub t p) then
      (r.category, r.tier, r.intelligence)
    else classifyAux u t rest

/-- `bi_page_classifier.classify_page_bi`: `url`/`title` may be `None` (DB nulls). -/
def classify_page_bi (url title : Option Str) : Str × Nat × Str :=
  classifyAux (lowerOrEmpty url) (lowerOrEmpty title) BI_TAXONOMY

/-- The pages stored for one company's WebsiteStructure, its `total_pages` aggregate
and `updated_at` timestamp. The page payload type is abstract: the reconciliation
scripts pass page dicts through to the store unchanged. -/
structure RecState (α : Type) where
  pages : List α
  total_pages : Nat
  updated_at : Nat
deriving DecidableEq

/-- The per-row insert loop shared by the reconciliation scripts (`try: INSERT ...
inserted += 1 / except: continue`): `ok` abstracts the store accepting or rejecting
one row (duplicate key, constraint violation, oversized field). Returns the rows
that went in, in order, together with the `inserted` counter. -/
def insertPages {α : Type} (ok : α → Bool) : List α → List α × Nat
  | [] => ([], 0)
  | p :: rest =>
    if ok p then
      let r := insertPages ok rest
      (p :: r.1, r.2 + 1)
    else insertPages ok rest

/-- The database portion of `phase3_scaled_processor.fix_company_with_real_pages`
(lines 130-173): skip (returning `False`, store untouched) when fewer than 5
candidates; otherwise delete all rows, insert up to 300 candidates row by row, and
set `total_pages` to the `inserted` counter. -/
def fix_company_with_real_pages {α : Type} (ok : α → Bool) (real_pages : List α)
    (st : RecState α) (now : Nat) : Bool × RecState α :=
  if real_pages.length < 5 then (false, st)
  else
    let pages_to_insert := real_pages.take 300
    let r := insertPages ok pages_to_insert
    (true, { pages := r.1, total_pages := r.2, updated_at := now })

/-- The database portion of `phase3_final.fix_company_pages` (lines 67-109): same
shape with a 200-row cap; returns `(success, pages_added)`. -/
def fix_company_pages {α : Type} (ok : α → Bool) (real_pages : List α)
    (st : RecState α) (now : Nat) : (Bool × Nat) × RecState α :=
  if real_pages.length < 5 then ((false, 0), st)
  else
    let r := insertPages ok (real_pages.take 200)
    ((true, r.2), { pages := r.1, total_pages := r.2, updated_at := now })

/-- The database portion of `phase2_pilot_fix.fix_company_sitemap` (lines 67-107):
threshold 10, 200-row cap, `total_pages` set to the `inserted` counter. -/
def fix_company_sitemap {α : Type} (ok : α → Bool) (real_pages : List α)
    (st : RecState α) (now : Nat) : Bool × RecState α :=
  if real_pages.length < 10 then (false, st)
  else
    let r := insertPages ok (real_pages.take 200)
    (true, { pages := r.1, total_pages := r.2, updated_at := now })

/-- The per-company database portion of `database_sitemap_fixer.fix_sitemap_database`
(lines 49-92): threshold `> 20`, 100-row sample; the insert loop keeps no counter and
`total_pages` is set to `len(real_pages_sample)` — the candidate count. -/
def fix_sitemap_database_company {α : Type} (ok : α → Bool) (real_pages : List α)
    (st : RecState α) (now : Nat) : RecState α :=
  if 20 < real_pages.length then
    let real_pages_sample := real_pages.take 100
    let r := insertPages ok real_pages_sample
    { pages := r.1, total_pages := real_pages_sample.length, updated_at := now }
  else st

/-- Host (netloc) of an http(s) URL: the scheme is dropped and the host runs to the
first of `/`, `?`, `#`. Claim-side definition, used only to *state* the host-based
property of C2 (the source never extracts a host). -/
def hostOf (url : Str) : Str :=
  let rest :=
    if startsWithStr url "https://".data then url.drop 8
    else if startsWithStr url "http://".data then url.drop 7
    else url
  rest.takeWhile (fun c => c != '/' && c != '?' && c != '#')

/-- The URL's host belongs to `domain`: it is the domain itself or a subdomain of
it. Claim-side definition for C2. -/
def hostInDomain (url domain : Str) : Bool :=
  hostOf url == domain || endsWithStr (hostOf url) ('.' :: domain)

/-- What document order predicts for an index walk: the classified extracts of the
successfully fetched sub-sitemaps, concatenated in listed order. -/
def indexFlatten (domain : Str) (subs : List (Option (List UrlElement))) :
    List (SitemapPage × BIInfo) :=
  ((subs.filterMap id).map
    (fun elems => (extract_real_pages_from_xml elems domain).map
      (fun p => (p, classify_page_for_bi p.url)))).flatten

/-! ## Shared lemmas -/

theorem containsSub_lowerStr {s p : Str} (h : containsSub s p = true) :
    containsSub (lowerStr s) (lowerStr p) = true := by
  simp only [containsSub, decide_eq_true_eq] at h ⊢
  obtain ⟨u, v, rfl⟩ := h
  exact ⟨u.map Char.toLower, v.map Char.toLower, by simp [lowerStr]⟩

theorem containsSub_of_endsWithStr {s p : Str} (h : endsWithStr s p = true) :
    containsSub s p = true := by
  simp only [endsWithStr, containsSub, decide_eq_true_eq] at h ⊢
  obtain ⟨u, rfl⟩ := h
  exact ⟨u, [], by simp⟩

/-- Membership in the advanced extractor forces the source filter conditions. -/
theorem mem_extract_real_pages {elems : List UrlElement} {domain : Str}
    {p : SitemapPage} (h : p ∈ extract_real_pages_from_xml elems domain) :
    containsSub p.url domain = true ∧
    containsSub (lowerStr p.url) "sitemap".data = false ∧
    containsSub (lowerStr p.url) ".xml".data = false := by
  unfold extract_real_pages_from_xml at h
  rw [List.mem_filterMap] at h
  obtain ⟨e, -, he⟩ := h
  unfold pageOfUrlElem at he
  split at he
  · exact absurd he (by simp)
  · split at he
    · exact absurd he (by simp)
    · dsimp only at he
      split at he
      · rename_i hcond
        obtain rfl := (Option.some_inj.mp he).symm
        simp only [Bool.and_eq_true, Bool.not_eq_true'] at hcond
        exact ⟨hcond.1.1.1, hcond.1.1.2, hcond.1.2⟩
      · exact absurd he (by simp)

/-- Membership in the phase3 extractor forces the source filter conditions. -/
theorem mem_parse_sitemap_for_real_pages {elems : List UrlElement} {domain : Str}
    {p : P3Page} (h : p ∈ parse_sitemap_for_real_pages elems domain) :
    containsSub p.url domain = true ∧
    containsSub (lowerStr p.url) "sitemap".data = false ∧
    containsSub (lowerStr p.url) ".xml".data = false ∧
    endsWithStr p.url ".xml".data = false := by
  unfold parse_sitemap_for_real_pages at h
  rw [List.mem_filterMap] at h
  obtain ⟨e, -, he⟩ := h
  unfold p3PageOfUrlElem at he
  split at he
  · exact absurd he (by simp)
  · split at he
    · exact absurd he (by simp)
    · dsimp only at he
      split at he
      · rename_i hcond
        obtain rfl := (Option.some_inj.mp he).symm
        simp only [Bool.and_eq_true, Bool.not_eq_true'] at hcond
        exact ⟨hcond.1.1.1.1, hcond.1.1.1.2, hcond.1.1.2, hcond.1.2⟩
      · exact absurd he (by simp)

/-- Membership in the database_sitemap_fixer extractor forces its (weaker) filter. -/
theorem mem_extract_urls_from_sitemap_xml {elems : List UrlElement} {domain : Str}
    {p : FixerPage} (h : p ∈ extract_urls_from_sitemap_xml elems domain) :
    containsSub p.url domain = true ∧
    containsSub (lowerStr p.url) "sitemap".data = false := by
  unfold extract_urls_from_sitemap_xml at h
  rw [List.mem_filterMap] at h
  obtain ⟨e, -, he⟩ := h
  unfold fixerPageOfUrlElem at he
  split at he
  · exact absurd he (by simp)
  · split at he
    · exact absurd he (by simp)
    · dsimp only at he
      split at he
      · rename_i hcond
        obtain rfl := (Option.some_inj.mp he).symm
        simp only [Bool.and_eq_true, Bool.not_eq_true'] at hcond
        exact ⟨hcond.1, hcond.2⟩
      · exact absurd he (by simp)

/-- The per-row insert loop keeps exactly the rows the store accepts, in order,
and its counter is their number. -/
theorem insertPages_eq {α : Type} (ok : α → Bool) :
    ∀ l : List α, insertPages ok l = (l.filter ok, (l.filter ok).length) := by
  intro l
  induction l with
  | nil => rfl
  | cons p rest ih =>
    by_cases h : ok p = true <;>
      simp [insertPages, h, ih, List.filter_cons]

/-- The classifier returns the default triple or the triple of some rule of the
list it walks. -/
theorem classifyAux_mem (u t : Str) :
    ∀ rules : List BIRule,
      classifyAux u t rules =
        ("unclassified".data, 7, "Unknown business intelligence value".data) ∨
      ∃ r ∈ rules, classifyAux u t rules = (r.category, r.tier, r.intelligence) := by
  intro rules
  induction rules with
  | nil => exact Or.inl rfl
  | cons r rest ih =>
    by_cases hu : r.url_patterns.any (fun p => containsSub u p) = true
    · exact Or.inr ⟨r, List.mem_cons_self r rest, by simp [classifyAux, hu]⟩
    · by_cases ht : r.title_patterns.any (fun p => containsSub t p) = true
      · exact Or.inr ⟨r, List.mem_cons_self r rest, by simp [classifyAux, hu, ht]⟩
      · have hstep : classifyAux u t (r :: rest) = classifyAux u t rest := by
          simp [classifyAux, hu, ht]
        rcases ih with h | ⟨r2, hr2, h⟩
        · exact Or.inl (hstep.trans h)
        · exact Or.inr ⟨r2, List.mem_cons_of_mem r hr2, hstep.trans h⟩

/-- First-match precedence over any rule list: if rule `i` matches and no earlier
rule does, the walk returns rule `i`'s triple. -/
theorem classifyAux_first_match (u t : Str) :
    ∀ (rules : List BIRule) (i : Nat) (h : i < rules.length),
      ruleMatches (rules.get ⟨i, h⟩) u t = true →
      (∀ j (hj : j < i), ruleMatches (rules.get ⟨j, lt_trans hj h⟩) u t = false) →
      classifyAux u t rules =
        ((rules.get ⟨i, h⟩).category, (rules.get ⟨i, h⟩).tier,
          (rules.get ⟨i, h⟩).intelligence)
  | [], i, h => absurd h (by simp)
  | r :: rest, 0, h => by
    intro hm _
    have hm' : ruleMatches r u t = true := hm
    show classifyAux u t (r :: rest) = (r.category, r.tier, r.intelligence)
    simp only [ruleMatches, Bool.or_eq_true] at hm'
    rcases hm' with hu | ht
    · simp [classifyAux, hu]
    · by_cases hu : r.url_patterns.any (fun p => containsSub u p) = true <;>
        simp [classifyAux, hu, ht]
  | r :: rest, i + 1, h => by
    intro hm hprev
    have h0 : ruleMatches r u t = false := hprev 0 (Nat.succ_pos i)
    simp only [ruleMatches, Bool.or_eq_true] at h0
    have hu : r.url_patterns.any (fun p => containsSub u p) = false := by
      cases hx : r.url_patterns.any (fun p => containsSub u p) <;> simp_all
    have ht : r.title_patterns.any (fun p => containsSub t p) = false := by
      cases hx : r.title_patterns.any (fun p => containsSub t p) <;> simp_all
    have hstep : classifyAux u t (r :: rest) = classifyAux u t rest := by
      simp [classifyAux, hu, ht]
    have hi : i < rest.length := Nat.lt_of_succ_lt_succ h
    have hm2 : ruleMatches (rest.get ⟨i, hi⟩) u t = true := hm
    have hrest := classifyAux_first_match u t rest i hi hm2
      (fun j hj => hprev (j + 1) (Nat.succ_lt_succ hj))
    show classifyAux u t (r :: rest) =
      ((rest.get ⟨i, hi⟩).category, (rest.get ⟨i, hi⟩).tier,
        (rest.get ⟨i, hi⟩).intelligence)
    rw [hstep]
    exact hrest

/-- The inner page loop appends, in order, exactly enough classified pages to fill
the accumulator up to `limit`. -/
theorem appendUpTo_eq (limit : Nat) (f : SitemapPage → SitemapPage × BIInfo) :
    ∀ (l : List SitemapPage) (acc : List (SitemapPage × BIInfo)),
      appendUpTo limit f l acc = acc ++ (l.map f).take (limit - acc.length)
  | [], acc => by simp [appendUpTo]
  | p :: rest, acc => by
    by_cases h : limit ≤ acc.length
    · have : limit - acc.length = 0 := Nat.sub_eq_zero_of_le h
      simp [appendUpTo, h, this]
    · have hlt : acc.length < limit := Nat.lt_of_not_le h
      have hrec := appendUpTo_eq limit f rest (acc ++ [f p])
      have harith : limit - (acc.length + 1) + 1 = limit - acc.length := by omega
      simp only [appendUpTo, if_neg h, hrec, List.length_append, List.length_cons,
        List.length_nil, Nat.zero_add, List.append_assoc, List.map_cons]
      rw [← harith, List.take_succ_cons]
      simp

/-- The sub-sitemap loop of the advanced walker produces exactly the document-order
flattening, truncated to the remaining budget. -/
theorem walkIndex_eq (limit : Nat) (domain : Str) :
    ∀ (subs : List (Option (List UrlElement))) (acc : List (SitemapPage × BIInfo)),
      walkIndex limit domain subs acc =
        acc ++ (indexFlatten domain subs).take (limit - acc.length)
  | [], acc => by simp [walkIndex, indexFlatten]
  | none :: rest, acc => by
    by_cases h : limit ≤ acc.length
    · have : limit - acc.length = 0 := Nat.sub_eq_zero_of_le h
      simp [walkIndex, h, this]
    · have hrec := walkIndex_eq limit domain rest acc
      have hflat : indexFlatten domain (none :: rest) = indexFlatten domain rest := by
        simp [indexFlatten]
      simp [walkIndex, h, hrec, hflat]
  | some elems :: rest, acc => by
    by_cases h : limit ≤ acc.length
    · have : limit - acc.length = 0 := Nat.sub_eq_zero_of_le h
      simp [walkIndex, h, this]
    · have hflat : indexFlatten domain (some elems :: rest) =
          ((extract_real_pages_from_xml elems domain).map
            (fun p => (p, classify_page_for_bi p.url))) ++ indexFlatten domain rest := by
        simp [indexFlatten]
      set X := (extract_real_pages_from_xml elems domain).map
        (fun p => (p, classify_page_for_bi p.url)) with hX
      calc walkIndex limit domain (some elems :: rest) acc
          = walkIndex limit domain rest
              (appendUpTo limit (fun p => (p, classify_page_for_bi p.url))
                (extract_real_pages_from_xml elems domain) acc) := by
            simp [walkIndex, h]
        _ = appendUpTo limit (fun p => (p, classify_page_for_bi p.url))
              (extract_real_pages_from_xml elems domain) acc ++
            (indexFlatten domain rest).take
              (limit - (appendUpTo limit (fun p => (p, classify_page_for_bi p.url))
                (extract_real_pages_from_xml elems domain) acc).length) :=
            walkIndex_eq limit domain rest _
        _ = (acc ++ X.take (limit - acc.length)) ++
            (indexFlatten domain rest).take
              (limit - (acc ++ X.take (limit - acc.length)).length) := by
            rw [appendUpTo_eq limit (fun p => (p, classify_page_for_bi p.url))
              (extract_real_pages_from_xml elems domain) acc, ← hX]
        _ = acc ++ (X ++ indexFlatten domain rest).take (limit - acc.length) := by
            rw [List.take_append_eq_append_take, List.append_assoc]
            congr 2
            congr 1
            simp only [List.length_append, List.length_take]
            omega
        _ = acc ++ (indexFlatten domain (some elems :: rest)).take
              (limit - acc.length) := by
            rw [hflat]

/-- `filterMap` over a replicated always-successful element replicates its image. -/
theorem filterMap_replicate_some {α β : Type} (f : α → Option β) (x : α) (y : β)
    (h : f x = some y) (n : Nat) :
    List.filterMap f (List.replicate n x) = List.replicate n y := by
  induction n with
  | zero => simp
  | succ n ih => simp [List.replicate_succ, List.filterMap_cons, h, ih]

theorem containsSub_false_of_lower {s p : Str} (hp : lowerStr p = p)
    (h : containsSub (lowerStr s) p = false) : containsSub s p = false := by
  cases hc : containsSub s p
  · rfl
  · exfalso
    have h2 := containsSub_lowerStr hc
    rw [hp] at h2
    exact Bool.noConfusion (h2.symm.trans h)

theorem endsWith_false_of_lower {s p : Str} (hp : lowerStr p = p)
    (h : containsSub (lowerStr s) p = false) : endsWithStr s p = false := by
  cases hc : endsWithStr s p
  · rfl
  · exfalso
    have h2 := containsSub_lowerStr (containsSub_of_endsWithStr hc)
    rw [hp] at h2
    exact Bool.noConfusion (h2.symm.trans h)

/-! ## Claim theorems -/

/-- C1 counterexample: the database_sitemap_fixer extractor yields
`https://example.com/data.xml` — a URL ending in ".xml" — because its filter checks
only for "sitemap", refuting the claim for that page extractor. -/
theorem fixer_yields_xml_url :
    ∃ p ∈ extract_urls_from_sitemap_xml
        [⟨some "https://example.com/data.xml".data, none, none, none⟩]
        "example.com".data,
      endsWithStr p.url ".xml".data = true := by decide

/-- C1 (amended): every page yielded by the advanced extractor
(`extract_real_pages_from_xml`) has a URL that neither contains "sitemap" nor ends
in ".xml"; the database_sitemap_fixer extractor (`extract_urls_from_sitemap_xml`)
guarantees only the "sitemap" half — it does not filter ".xml" URLs. -/
theorem extract_pages_sitemap_xml_filter (elems : List UrlElement) (domain : Str) :
    (∀ p ∈ extract_real_pages_from_xml elems domain,
      containsSub p.url "sitemap".data = false ∧
      endsWithStr p.url ".xml".data = false) ∧
    (∀ p ∈ extract_urls_from_sitemap_xml elems domain,
      containsSub p.url "sitemap".data = false) := by
  refine ⟨fun p hp => ?_, fun p hp => ?_⟩
  · obtain ⟨-, hsm, hxml⟩ := mem_extract_real_pages hp
    exact ⟨containsSub_false_of_lower (by decide) hsm,
      endsWith_false_of_lower (by decide) hxml⟩
  · obtain ⟨-, hsm⟩ := mem_extract_urls_from_sitemap_xml hp
    exact containsSub_false_of_lower (by decide) hsm

/-- C1 witness: the amended theorem applied to a concrete yielded page. -/
theorem extract_pages_sitemap_xml_filter_witness :
    containsSub "https://example.com/about".data "sitemap".data = false ∧
    endsWithStr "https://example.com/about".data ".xml".data = false :=
  (extract_pages_sitemap_xml_filter
    [⟨some "https://example.com/about".data, none, none, none⟩] "example.com".data).1
    ⟨"https://example.com/about".data, "/about".data, "About".data, none, none,
      none, 1⟩
    (by decide)

/-- C2 counterexample: with domain `example.com`, the advanced extractor yields
`https://evil.com/?ref=example.com`, whose host `evil.com` is outside the domain —
the source checks `domain in url` over the whole URL string, not the host. -/
theorem extract_pages_foreign_host :
    ∃ p ∈ extract_real_pages_from_xml
        [⟨some "https://evil.com/?ref=example.com".data, none, none, none⟩]
        "example.com".data,
      hostInDomain p.url "example.com".data = false := by decide

/-- C2 (amended): the extractors guarantee only that the yielded URL *contains the
domain string as a substring* (anywhere in the URL); the host is never inspected. -/
theorem extract_pages_domain_substring (elems : List UrlElement) (domain : Str) :
    (∀ p ∈ extract_real_pages_from_xml elems domain,
      containsSub p.url domain = true) ∧
    (∀ p ∈ parse_sitemap_for_real_pages elems domain,
      containsSub p.url domain = true) :=
  ⟨fun _ hp => (mem_extract_real_pages hp).1,
    fun _ hp => (mem_parse_sitemap_for_real_pages hp).1⟩

/-- C2 witness: the amended theorem applied to a concrete yielded page. -/
theorem extract_pages_domain_substring_witness :
    containsSub "https://example.com/about".data "example.com".data = true :=
  (extract_pages_domain_substring
    [⟨some "https://example.com/about".data, none, none, none⟩] "example.com".data).1
    ⟨"https://example.com/about".data, "/about".data, "About".data, none, none,
      none, 1⟩
    (by decide)

/-- C3: `classify_page_bi` applies `BI_TAXONOMY` in its listed order — each rule's
URL patterns before its title patterns — and the first matching rule determines
the returned (category, tier, intelligence) triple. -/
theorem classify_page_bi_first_match (url title : Option Str) (i : Nat)
    (h : i < BI_TAXONOMY.length)
    (hm : ruleMatches (BI_TAXONOMY.get ⟨i, h⟩) (lowerOrEmpty url)
      (lowerOrEmpty title) = true)
    (hprev : ∀ j (hj : j < i), ruleMatches (BI_TAXONOMY.get ⟨j, lt_trans hj h⟩)
      (lowerOrEmpty url) (lowerOrEmpty title) = false) :
    classify_page_bi url title =
      ((BI_TAXONOMY.get ⟨i, h⟩).category, (BI_TAXONOMY.get ⟨i, h⟩).tier,
        (BI_TAXONOMY.get ⟨i, h⟩).intelligence) :=
  classifyAux_first_match _ _ BI_TAXONOMY i h hm hprev

/-- C3 witness: a URL containing both "/about" and "/careers" classifies as
careers (rule 0), which is listed before about. -/
theorem classify_page_bi_first_match_witness :
    classify_page_bi (some "https://x.com/about/careers".data) none =
      ("careers".data, 1,
        "Hiring activity, growth indicators, business expansion signals".data) := by
  have h := classify_page_bi_first_match (some "https://x.com/about/careers".data)
    none 0 (by decide) (by decide) (by decide)
  exact h.trans (by decide)

/-- C4: the classifier's tier is always in {1..7}; category "unclassified" forces
tier 7; and no taxonomy rule carries tier 7. -/
theorem classify_page_bi_tier_range (url title : Option Str) :
    (1 ≤ (classify_page_bi url title).2.1 ∧ (classify_page_bi url title).2.1 ≤ 7) ∧
    ((classify_page_bi url title).1 = "unclassified".data →
      (classify_page_bi url title).2.1 = 7) ∧
    (∀ r ∈ BI_TAXONOMY, r.tier ≠ 7) := by
  have hrules : ∀ r ∈ BI_TAXONOMY,
      (1 ≤ r.tier ∧ r.tier ≤ 6) ∧ r.category ≠ "unclassified".data := by decide
  have h7 : ∀ r ∈ BI_TAXONOMY, r.tier ≠ 7 := by
    intro r hr h
    have := (hrules r hr).1.2
    omega
  rcases classifyAux_mem (lowerOrEmpty url) (lowerOrEmpty title) BI_TAXONOMY
    with h | ⟨r, hr, h⟩
  · unfold classify_page_bi
    rw [h]
    exact ⟨⟨by decide, by decide⟩, fun _ => rfl, h7⟩
  · unfold classify_page_bi
    rw [h]
    dsimp only
    refine ⟨⟨(hrules r hr).1.1, ?_⟩, fun hcat => absurd hcat (hrules r hr).2, h7⟩
    have := (hrules r hr).1.2
    omega

/-- C4 witness: the theorem applied at a concrete input. -/
theorem classify_page_bi_tier_range_witness :
    1 ≤ (classify_page_bi none none).2.1 ∧ (classify_page_bi none none).2.1 ≤ 7 :=
  (classify_page_bi_tier_range none none).1

/-- C10: the classifier is total on absent inputs: for `url` and `title` each
`None` or the empty string it returns exactly
`('unclassified', 7, 'Unknown business intelligence value')`. -/
theorem classify_page_bi_total_on_absent :
    classify_page_bi none none =
      ("unclassified".data, 7, "Unknown business intelligence value".data) ∧
    classify_page_bi none (some []) =
      ("unclassified".data, 7, "Unknown business intelligence value".data) ∧
    classify_page_bi (some []) none =
      ("unclassified".data, 7, "Unknown business intelligence value".data) ∧
    classify_page_bi (some []) (some []) =
      ("unclassified".data, 7, "Unknown business intelligence value".data) := by
  decide

/-- C5 counterexample: in `database_sitemap_fixer.fix_sitemap_database`, with 21
candidates of which one row fails to insert, the stored total becomes 21 (the
candidate count) although only 20 rows were actually inserted. -/
theorem fixer_stores_candidate_count :
    (fix_sitemap_database_company (fun n => decide (n < 20)) (List.range 21)
      ⟨[], 0, 0⟩ 1).total_pages = 21 ∧
    (fix_sitemap_database_company (fun n => decide (n < 20)) (List.range 21)
      ⟨[], 0, 0⟩ 1).pages.length = 20 ∧
    (fix_sitemap_database_company (fun n => decide (n < 20)) (List.range 21)
      ⟨[], 0, 0⟩ 1).total_pages ≠
      (fix_sitemap_database_company (fun n => decide (n < 20)) (List.range 21)
        ⟨[], 0, 0⟩ 1).pages.length := by
  decide

/-- C5 (amended): the phase3 reconciliation stores the actually-inserted count
(equal to the number of stored rows, i.e. the accepted candidates); the
database_sitemap_fixer reconciliation instead stores the candidate-sample count. -/
theorem reconciliation_count_amended {α : Type} (ok : α → Bool) (real_pages : List α)
    (st : RecState α) (now : Nat) :
    ((fix_company_with_real_pages ok real_pages st now).1 = true →
      (fix_company_with_real_pages ok real_pages st now).2.total_pages =
        ((real_pages.take 300).filter ok).length ∧
      (fix_company_with_real_pages ok real_pages st now).2.total_pages =
        (fix_company_with_real_pages ok real_pages st now).2.pages.length) ∧
    (20 < real_pages.length →
      (fix_sitemap_database_company ok real_pages st now).total_pages =
        (real_pages.take 100).length) := by
  constructor
  · intro hsucc
    by_cases h : real_pages.length < 5
    · simp [fix_company_with_real_pages, h] at hsucc
    · simp [fix_company_with_real_pages, h, insertPages_eq]
  · intro h
    simp [fix_sitemap_database_company, h]

/-- C5 witness: six candidates, one rejected — the stored count is 5, the number
actually inserted, not the candidate count 6. -/
theorem reconciliation_count_witness :
    (fix_company_with_real_pages (fun n => decide (n ≠ 2)) (List.range 6)
      ⟨[], 0, 0⟩ 1).2.total_pages = 5 := by
  have h := (reconciliation_count_amended (fun n => decide (n ≠ 2)) (List.range 6)
    ⟨[], 0, 0⟩ 1).1 (by decide)
  exact h.1.trans (by decide)

/-- C6: with fewer than 5 candidates the reconciliation performs no delete: the
stored pages, count and timestamp are all unchanged and the run reports failure. -/
theorem min_yield_guard {α : Type} (ok : α → Bool) (real_pages : List α)
    (st : RecState α) (now : Nat) (h : real_pages.length < 5) :
    fix_company_with_real_pages ok real_pages st now = (false, st) ∧
    fix_company_pages ok real_pages st now = ((false, 0), st) := by
  constructor <;> simp [fix_company_with_real_pages, fix_company_pages, h]

/-- C6 witness: three candidates leave a nonempty prior state untouched. -/
theorem min_yield_guard_witness :
    [0, 1, 2].length < 5 ∧
    fix_company_with_real_pages (fun _ => true) [0, 1, 2]
      ⟨[9, 8], 2, 3⟩ 7 = (false, ⟨[9, 8], 2, 3⟩) ∧
    fix_company_pages (fun _ => true) [0, 1, 2]
      ⟨[9, 8], 2, 3⟩ 7 = ((false, 0), ⟨[9, 8], 2, 3⟩) :=
  ⟨by decide,
    (min_yield_guard (fun _ => true) [0, 1, 2] ⟨[9, 8], 2, 3⟩ 7 (by decide)).1,
    (min_yield_guard (fun _ => true) [0, 1, 2] ⟨[9, 8], 2, 3⟩ 7 (by decide)).2⟩

/-- C7: a rejected candidate row is skipped without aborting: whenever the
minimum-yield guard passes, the reconciliation still reports success, and the
stored rows are exactly the accepted candidates in order — later candidates are
still attempted and earlier successful rows are kept. -/
theorem row_failure_isolated {α : Type} (ok : α → Bool) (real_pages : List α)
    (st : RecState α) (now : Nat) :
    (5 ≤ real_pages.length →
      (fix_company_with_real_pages ok real_pages st now).1 = true ∧
      (fix_company_with_real_pages ok real_pages st now).2.pages =
        (real_pages.take 300).filter ok) ∧
    (10 ≤ real_pages.length →
      (fix_company_sitemap ok real_pages st now).1 = true ∧
      (fix_company_sitemap ok real_pages st now).2.pages =
        (real_pages.take 200).filter ok) := by
  constructor
  · intro h
    have h5 : ¬real_pages.length < 5 := by omega
    simp [fix_company_with_real_pages, h5, insertPages_eq]
  · intro h
    have h10 : ¬real_pages.length < 10 := by omega
    simp [fix_company_sitemap, h10, insertPages_eq]

/-- C7 witness: ten candidates with row `3` rejected — both reconciliations succeed
and store the other nine rows, including those after the failure. -/
theorem row_failure_isolated_witness :
    (fix_company_with_real_pages (fun n => decide (n ≠ 3)) (List.range 10)
      ⟨[], 0, 0⟩ 1).2.pages = [0, 1, 2, 4, 5, 6, 7, 8, 9] ∧
    (fix_company_sitemap (fun n => decide (n ≠ 3)) (List.range 10)
      ⟨[], 0, 0⟩ 1).1 = true := by
  constructor
  · exact ((row_failure_isolated (fun n => decide (n ≠ 3)) (List.range 10)
      ⟨[], 0, 0⟩ 1).1 (by decide)).2.trans (by decide)
  · exact ((row_failure_isolated (fun n => decide (n ≠ 3)) (List.range 10)
      ⟨[], 0, 0⟩ 1).2 (by decide)).1

/-- C8 counterexample: `parse_sitemap_index_for_real_pages` checks its 300-page
limit only *after* extending with a whole sub-sitemap, so a single sub-sitemap of
301 acceptable pages makes the walk return 301 entries — exceeding the bound. -/
theorem p3_walk_exceeds_limit :
    300 < (parse_sitemap_index_for_real_pages "a.com".data
      [some (List.replicate 301
        ⟨some "https://a.com/p".data, none, none, none⟩)]).length := by
  have hsome : (p3PageOfUrlElem "a.com".data
      ⟨some "https://a.com/p".data, none, none, none⟩).isSome = true := by decide
  obtain ⟨pg, hpg⟩ := Option.isSome_iff_exists.mp hsome
  have hext : parse_sitemap_for_real_pages
      (List.replicate 301 ⟨some "https://a.com/p".data, none, none, none⟩)
      "a.com".data = List.replicate 301 pg := by
    unfold parse_sitemap_for_real_pages
    exact filterMap_replicate_some _ _ _ hpg 301
  have hloop : indexLoop "a.com".data
      [some (List.replicate 301 ⟨some "https://a.com/p".data, none, none, none⟩)]
      [] = [] ++ parse_sitemap_for_real_pages
        (List.replicate 301 ⟨some "https://a.com/p".data, none, none, none⟩)
        "a.com".data := by
    simp only [indexLoop]
    split
    · rfl
    · rfl
  unfold parse_sitemap_index_for_real_pages
  rw [show ([some (List.replicate 301
      (⟨some "https://a.com/p".data, none, none, none⟩ : UrlElement))].take 10) =
      [some (List.replicate 301
        (⟨some "https://a.com/p".data, none, none, none⟩ : UrlElement))] from rfl]
  rw [hloop, hext, List.nil_append, List.length_replicate]
  omega

/-- C8 (amended): for the advanced parser (`parse_company_real_pages`), the walk
never accumulates more than `limit_pages` entries, and an index walk yields exactly
the document-order flattening of its sub-sitemaps — sub-sitemaps in listed order —
truncated at `limit_pages`. -/
theorem advanced_walk_bounded_ordered (domain : Str) (limit : Nat)
    (doc : SitemapDoc) :
    (parse_company_real_pages domain limit doc).length ≤ limit ∧
    (∀ subs, doc = SitemapDoc.index subs →
      parse_company_real_pages domain limit doc =
        (indexFlatten domain subs).take limit) := by
  constructor
  · cases doc with
    | index subs =>
      have h := walkIndex_eq limit domain subs []
      simp only [parse_company_real_pages, h, List.nil_append, List.length_nil,
        Nat.sub_zero]
      simp [List.length_take]
    | direct elems =>
      simp only [parse_company_real_pages, List.length_map]
      simp [List.length_take]
  · intro subs hdoc
    subst hdoc
    have h := walkIndex_eq limit domain subs []
    simpa using h

/-- C8 witness: an index with one sub-sitemap of two pages, walked with
`limit_pages = 1`, yields exactly the first classified page. -/
theorem advanced_walk_bounded_ordered_witness :
    parse_company_real_pages "a.com".data 1
      (SitemapDoc.index
        [some [⟨some "https://a.com/careers".data, none, none, none⟩,
          ⟨some "https://a.com/x".data, none, none, none⟩]]) =
      [(⟨"https://a.com/careers".data, "/careers".data, "Careers".data, none, none,
          none, 1⟩,
        ⟨"careers".data, "careers".data, 1,
          "Hiring activity, growth indicators, business expansion signals".data⟩)] := by
  have h := (advanced_walk_bounded_ordered "a.com".data 1
    (SitemapDoc.index
      [some [⟨some "https://a.com/careers".data, none, none, none⟩,
        ⟨some "https://a.com/x".data, none, none, none⟩]])).2 _ rfl
  exact h.trans (by decide)

end MD
